import Mathlib

/-!
Shallow embedding of the Go-Testing repository in Lean 4, together with
theorems settling the behavioural claims about its exercises: the
map-backed dictionary, the wallet, the mutex-guarded counter, the shapes,
the countdown, the list-summing helpers, the concurrent website checker
and the two-probe racer.
-/

set_option maxHeartbeats 1000000

namespace GoTesting

/-! ## Dictionary (src/unnamed/part_005)

A Go `map[string]string` is embedded as a function from keys to optional
values.  The typed errors are the string constants of the source; a Go
`error` result is an `Option DictionaryErr`, `none` standing for `nil`. -/

namespace Dict

abbrev DictionaryErr := String

def ErrWordExists : DictionaryErr := "cannot add word because it already exists"

def ErrNotFound : DictionaryErr := "could not find the word you are looking for"

def ErrWordDoesNotExists : DictionaryErr := "cannot update word because it does not exist"

def Dictionary := String → Option String

/-- Embeds `Dictionary.Search`: look the word up; on a miss return the empty
string and `ErrNotFound`. -/
def Dictionary.Search (d : Dictionary) (word : String) : String × Option DictionaryErr :=
  match d word with
  | some definition => (definition, none)
  | none => ("", some ErrNotFound)

/-- Embeds `Dictionary.Add`: the Go method mutates the receiver map, so the
embedding returns the updated map together with the `error` result.  The
`switch` of the source is the `match` below. -/
def Dictionary.Add (d : Dictionary) (word definition : String) :
    Dictionary × Option DictionaryErr :=
  match (d.Search word).2 with
  | some e =>
    if e = ErrNotFound then ((fun k => if k = word then some definition else d k), none)
    else (d, some e)
  | none => (d, some ErrWordExists)

/-- Embeds `Dictionary.Update`: same `switch` shape as `Add`, but the roles of
the `ErrNotFound` and `nil` cases are exchanged. -/
def Dictionary.Update (d : Dictionary) (word definition : String) :
    Dictionary × Option DictionaryErr :=
  match (d.Search word).2 with
  | some e =>
    if e = ErrNotFound then (d, some ErrWordDoesNotExists)
    else (d, some e)
  | none => ((fun k => if k = word then some definition else d k), none)

/-- Embeds `Dictionary.Delete`: Go's built-in `delete` removes the key. -/
def Dictionary.Delete (d : Dictionary) (word : String) : Dictionary :=
  fun k => if k = word then none else d k

/-- The empty dictionary literal of the tests. -/
def emptyDict : Dictionary := fun _ => none

/-- The one-entry dictionary literal of the tests. -/
def testDict : Dictionary :=
  fun k => if k = "test" then some "this is just a test" else none

/-- Claim C4: adding a word that is not yet a key succeeds (`nil` error) and a
subsequent `Search` finds the new definition; adding a word that is already a
key returns `ErrWordExists`, leaves the dictionary untouched, and the
previously stored definition still answers `Search`. -/
theorem Add_spec (d : Dictionary) (w defn : String) :
    (d w = none →
      (d.Add w defn).2 = none ∧ ((d.Add w defn).1).Search w = (defn, none)) ∧
    (∀ v, d w = some v →
      (d.Add w defn).2 = some ErrWordExists ∧ (d.Add w defn).1 = d ∧
        ((d.Add w defn).1).Search w = (v, none)) := by
  constructor
  · intro h
    simp [Dictionary.Add, Dictionary.Search, h]
  · intro v h
    simp [Dictionary.Add, Dictionary.Search, h]

/-- Witness for C4 at the concrete dictionaries of the tests. -/
theorem Add_spec_witness :
    ((emptyDict.Add "test" "this is just a test").2 = none ∧
      ((emptyDict.Add "test" "this is just a test").1).Search "test" =
        ("this is just a test", none)) ∧
    ((testDict.Add "test" "new test").2 = some ErrWordExists ∧
      (testDict.Add "test" "new test").1 = testDict ∧
      ((testDict.Add "test" "new test").1).Search "test" =
        ("this is just a test", none)) :=
  ⟨(Add_spec emptyDict "test" "this is just a test").1 rfl,
   (Add_spec testDict "test" "new test").2 "this is just a test" rfl⟩

/-- Claim C5: `Search` returns the stored definition with a `nil` error on a
hit and `("", ErrNotFound)` on a miss; after `Delete w` a `Search w` misses;
`Update` on an absent word returns `ErrWordDoesNotExists` and adds nothing. -/
theorem Search_spec (d : Dictionary) (w defn : String) :
    (∀ v, d w = some v → d.Search w = (v, none)) ∧
    (d w = none → d.Search w = ("", some ErrNotFound)) ∧
    ((d.Delete w).Search w = ("", some ErrNotFound)) ∧
    (d w = none →
      (d.Update w defn).2 = some ErrWordDoesNotExists ∧ (d.Update w defn).1 = d) := by
  refine ⟨?_, ?_, ?_, ?_⟩
  · intro v h
    simp [Dictionary.Search, h]
  · intro h
    simp [Dictionary.Search, h]
  · simp [Dictionary.Search, Dictionary.Delete]
  · intro h
    simp [Dictionary.Update, Dictionary.Search, h]

/-- Witness for C5 at the concrete dictionaries of the tests. -/
theorem Search_spec_witness :
    (testDict.Search "test" = ("this is just a test", none)) ∧
    (emptyDict.Search "test" = ("", some ErrNotFound)) ∧
    ((testDict.Delete "test").Search "test" = ("", some ErrNotFound)) ∧
    ((emptyDict.Update "test" "new definition").2 = some ErrWordDoesNotExists ∧
      (emptyDict.Update "test" "new definition").1 = emptyDict) :=
  ⟨(Search_spec testDict "test" "new definition").1 "this is just a test" rfl,
   (Search_spec emptyDict "test" "new definition").2.1 rfl,
   (Search_spec testDict "test" "new definition").2.2.1,
   (Search_spec emptyDict "test" "new definition").2.2.2 rfl⟩

end Dict

/-! ## Wallet (src/unnamed/part_014)

`Bitcoin` is a Go `int`; the toy never approaches machine bounds so it is
embedded as an unbounded integer.  The pointer-receiver methods mutate the
wallet, so `Withdraw` returns the new wallet together with its `error`. -/

namespace WalletPkg

abbrev Bitcoin := Int

structure Wallet where
  balance : Bitcoin

def ErrInsufficientFunds : String := "cannot withdraw, insufficient funds"

def Wallet.Deposit (w : Wallet) (amount : Bitcoin) : Wallet :=
  { balance := w.balance + amount }

def Wallet.Balance (w : Wallet) : Bitcoin :=
  w.balance

def Wallet.Withdraw (w : Wallet) (amount : Bitcoin) : Wallet × Option String :=
  if amount > w.balance then (w, some ErrInsufficientFunds)
  else ({ balance := w.balance - amount }, none)

/-- Claim C9: withdrawing more than the balance fails with
`ErrInsufficientFunds` and leaves the balance unchanged; otherwise `Withdraw`
succeeds and lowers the balance by exactly the amount; `Deposit` raises it by
exactly the amount, and `Balance` reports it. -/
theorem Withdraw_Deposit_spec (w : Wallet) (a : Bitcoin) :
    (a > w.balance → w.Withdraw a = (w, some ErrInsufficientFunds)) ∧
    (a ≤ w.balance →
      w.Withdraw a = ({ balance := w.balance - a }, none)) ∧
    (w.Deposit a).Balance = w.Balance + a ∧
    w.Balance = w.balance := by
  refine ⟨?_, ?_, rfl, rfl⟩
  · intro h
    simp [Wallet.Withdraw, h]
  · intro h
    simp [Wallet.Withdraw, not_lt.mpr h]

/-- Witness for C9 at the balances of the wallet tests. -/
theorem Withdraw_Deposit_spec_witness :
    (Wallet.Withdraw { balance := 20 } 100 =
      ({ balance := 20 }, some ErrInsufficientFunds)) ∧
    (Wallet.Withdraw { balance := 20 } 10 = ({ balance := 10 }, none)) ∧
    (Wallet.Deposit { balance := 0 } 10).Balance = 10 :=
  ⟨(Withdraw_Deposit_spec { balance := 20 } 100).1 (by decide),
   (Withdraw_Deposit_spec { balance := 20 } 10).2.1 (by decide),
   (Withdraw_Deposit_spec { balance := 0 } 10).2.2.1⟩

end WalletPkg

/-! ## Counter (src/sync/sync_test.go)

The mutex only serialises `Inc`; each `Inc` adds one to the stored `int`.
The embedding is the sequential state: a run of the counter is a number of
`Inc` operations applied to `NewCounter`. -/

namespace SyncPkg

structure Counter where
  value : Int

def NewCounter : Counter :=
  { value := 0 }

def Counter.Inc (c : Counter) : Counter :=
  { value := c.value + 1 }

def Counter.Value (c : Counter) : Int :=
  c.value

/-- A sequence of n Inc operations starting from a counter state. -/
def incN : Nat → Counter → Counter
  | 0, c => c
  | n + 1, c => (incN n c).Inc

/-- Claim C6: each `Inc` raises `Value` by exactly one, `Value` itself changes
nothing, and after any sequence of n `Inc` operations from `NewCounter` the
counter reads n. -/
theorem Counter_spec (n : Nat) :
    (∀ c : Counter, c.Inc.Value = c.Value + 1) ∧
    (incN n NewCounter).Value = (n : Int) := by
  refine ⟨fun c => rfl, ?_⟩
  induction n with
  | zero => rfl
  | succ m ih =>
      simp only [incN, Counter.Inc, Counter.Value] at ih ⊢
      omega

end SyncPkg

/-! ## Shapes (src/structs-interfaces/perimeter_test.go)

The `float64` fields compute exact closed-form products and sums, so they
are embedded as real numbers; `math.Pi` is embedded as the real constant. -/

namespace Shapes

structure Rectangle where
  Width : ℝ
  Height : ℝ

structure Circle where
  Radius : ℝ

structure Triangle where
  Base : ℝ
  Height : ℝ

noncomputable def Perimeter (rectangle : Rectangle) : ℝ :=
  2 * (rectangle.Width + rectangle.Height)

noncomputable def Rectangle.Area (r : Rectangle) : ℝ :=
  r.Width * r.Height

noncomputable def Circle.Area (c : Circle) : ℝ :=
  Real.pi * (c.Radius * c.Radius)

noncomputable def Triangle.Area (t : Triangle) : ℝ :=
  0.5 * t.Base * t.Height

/-- Claim C8: for non-negative dimensions, `Perimeter` is 2(w+h) and the
`Area` methods compute w*h, pi*r*r and b*h/2 respectively. -/
theorem Area_spec (w h r b ht : ℝ)
    (hw : 0 ≤ w) (hh : 0 ≤ h) (hr : 0 ≤ r) (hb : 0 ≤ b) (hht : 0 ≤ ht) :
    Perimeter { Width := w, Height := h } = 2 * (w + h) ∧
    Rectangle.Area { Width := w, Height := h } = w * h ∧
    Circle.Area { Radius := r } = Real.pi * r * r ∧
    Triangle.Area { Base := b, Height := ht } = 0.5 * b * ht := by
  refine ⟨rfl, rfl, ?_, rfl⟩
  simp [Circle.Area, mul_assoc]

/-- Witness for C8 at the dimensions used in the shape tests. -/
theorem Area_spec_witness :
    Perimeter { Width := 10, Height := 15 } = 2 * (10 + 15) ∧
    Rectangle.Area { Width := 10, Height := 15 } = 10 * 15 ∧
    Circle.Area { Radius := 10 } = Real.pi * 10 * 10 ∧
    Triangle.Area { Base := 12, Height := 6 } = 0.5 * 12 * 6 :=
  Area_spec 10 15 10 12 6 (by norm_num) (by norm_num) (by norm_num)
    (by norm_num) (by norm_num)

end Shapes

/-! ## Sum and SumAllTails (package array, src/concurrency/select_test.go)

Go slices of `int` are embedded as lists of integers; the `for range`
accumulation of `Sum` is a left fold. -/

namespace ArrayPkg

def Sum (num : List Int) : Int :=
  num.foldl (fun result numbers => result + numbers) 0

/-- Embeds `SumAllTails`: for each inner slice, append 0 when it is empty and
otherwise append `Sum(numbers) - numbers[0]`; the pattern match plays the role
of the `len(numbers) == 0` guard, so the head access is always in bounds. -/
def SumAllTails (numsToSum : List (List Int)) : List Int :=
  numsToSum.map (fun numbers =>
    match numbers with
    | [] => 0
    | head :: _ => Sum numbers - head)

theorem foldl_add_shift (l : List Int) (a : Int) :
    l.foldl (fun result numbers => result + numbers) a =
      a + l.foldl (fun result numbers => result + numbers) 0 := by
  induction l generalizing a with
  | nil => simp
  | cons x xs ih =>
      simp only [List.foldl]
      rw [ih (a + x), ih (0 + x)]
      ring

theorem Sum_cons (x : Int) (xs : List Int) : Sum (x :: xs) = x + Sum xs := by
  simp only [Sum, List.foldl]
  rw [foldl_add_shift xs (0 + x)]
  ring

/-- Claim C10: `SumAllTails` keeps the length of its input, maps an empty
slice to 0 and any other slice to the sum of its tail (its sum minus its
first element), and in particular never indexes out of bounds. -/
theorem SumAllTails_spec (numsToSum : List (List Int)) :
    (SumAllTails numsToSum).length = numsToSum.length ∧
    (∀ i : Nat, (SumAllTails numsToSum).getD i 0 =
      match numsToSum.getD i [] with
      | [] => 0
      | head :: tail => Sum (head :: tail) - head) ∧
    (∀ head : Int, ∀ tail : List Int, Sum (head :: tail) - head = Sum tail) := by
  refine ⟨by simp [SumAllTails], ?_, ?_⟩
  · intro i
    by_cases hi : i < numsToSum.length
    · rw [List.getD_eq_getElem _ _ (by simpa [SumAllTails] using hi),
        List.getD_eq_getElem _ _ hi]
      simp only [SumAllTails, List.getElem_map]
      cases numsToSum[i] with
      | nil => rfl
      | cons head tail => rfl
    · rw [List.getD_eq_default _ _ (by simpa [SumAllTails] using Nat.le_of_not_lt hi),
        List.getD_eq_default _ _ (Nat.le_of_not_lt hi)]
  · intro head tail
    rw [Sum_cons]
    ring

end ArrayPkg

/-! ## Countdown (src/mocking/main.go and the DI variant)

A run of `Countdown` is embedded as its trace of effects on the injected
writer and sleeper: a `write s` event for each `Fprint` call and a `sleep`
event for each `Sleep` call, in program order.  `Countdown` is the
`mocking` package version (`Fprintln(out, i)` writes the numeral and a
newline); `CountdownDI` is the variant of the DI/mocking directory, whose
loop body is `Fprintf(out, "%d\n\t", i)`. -/

namespace Mocking

inductive Event where
  | write (s : String)
  | sleep
deriving DecidableEq

def countdownStart : Nat := 3

def finalWord : String := "Go!"

/-- The loop `for i := countdownStart; i > 0; i--` of src/mocking/main.go:
each iteration prints the numeral with a trailing newline, then sleeps. -/
def countdownLoop : Nat → List Event
  | 0 => []
  | i + 1 =>
      Event.write (toString (i + 1) ++ "\n") :: Event.sleep :: countdownLoop i

def Countdown : List Event :=
  countdownLoop countdownStart ++ [Event.write finalWord]

/-- The loop of the DI/mocking variant (src/unnamed/part_001): each iteration
prints the numeral, a newline and a tab, then sleeps. -/
def countdownLoopDI : Nat → List Event
  | 0 => []
  | i + 1 =>
      Event.write (toString (i + 1) ++ "\n\t") :: Event.sleep :: countdownLoopDI i

def CountdownDI : List Event :=
  countdownLoopDI countdownStart ++ [Event.write finalWord]

/-- Everything a trace writes, concatenated in order. -/
def output : List Event → String
  | [] => ""
  | Event.write s :: rest => s ++ output rest
  | Event.sleep :: rest => output rest

/-- How many times a trace sleeps. -/
def sleepCount : List Event → Nat
  | [] => 0
  | Event.write _ :: rest => sleepCount rest
  | Event.sleep :: rest => sleepCount rest + 1

/-- Counterexample to C7: the claim covers both cited implementations, but
the DI/mocking variant does not write each numeral followed by just a
newline — its output carries a tab after every newline, so it differs from
the claimed "3\n2\n1\nGo!". -/
theorem Countdown_newline_counterexample :
    output CountdownDI ≠ "3\n2\n1\nGo!" ∧
    output CountdownDI = "3\n\t2\n\t1\n\tGo!" := by
  constructor
  · decide
  · rfl

/-- Claim C7 as amended: the `mocking` package `Countdown` writes the
numerals 3, 2, 1 each followed by a newline and then the final word "Go!",
sleeping exactly once after each numeral, writes and sleeps strictly
alternating; the DI/mocking variant has the same shape except that each
numeral is followed by a newline and a tab. -/
theorem Countdown_spec :
    Countdown =
      [Event.write "3\n", Event.sleep, Event.write "2\n", Event.sleep,
        Event.write "1\n", Event.sleep, Event.write finalWord] ∧
    output Countdown = "3\n2\n1\nGo!" ∧
    sleepCount Countdown = 3 ∧
    CountdownDI =
      [Event.write "3\n\t", Event.sleep, Event.write "2\n\t", Event.sleep,
        Event.write "1\n\t", Event.sleep, Event.write finalWord] ∧
    sleepCount CountdownDI = 3 := by
  refine ⟨rfl, rfl, rfl, rfl, rfl⟩

end Mocking

/-! ## CheckWebsites (src/concurrency/goroutine_test.go)

One goroutine is spawned per entry of `urls`; the goroutine for `u`
invokes `wc` once and sends the pair `(u, wc u)` on the result channel.
The channel delivers those messages in an order chosen by the scheduler,
so a run of the orchestrator is parametrised by the received list `recv`,
admissible exactly when it is a permutation of the sent messages.  The Go
map of results is a function from URL to optional bool, and the receive
loop folds the messages into it, later arrivals overwriting earlier
ones. -/

namespace Concurrency

abbrev WebsiteChecker := String → Bool

/-- The messages sent on `resultChannel`: one `result{u, wc(u)}` per spawned
goroutine, listed here in spawn order. -/
def resultMessages (wc : WebsiteChecker) (urls : List String) : List (String × Bool) :=
  urls.map (fun u => (u, wc u))

/-- One step of the receive loop: `results[r.string] = r.bool`. -/
def insertResult (results : String → Option Bool) (r : String × Bool) :
    String → Option Bool :=
  fun k => if k = r.1 then some r.2 else results k

/-- The receive loop of `CheckWebsites`, folding the received messages into
the initially empty `results` map. -/
def insertResults (recv : List (String × Bool)) : String → Option Bool :=
  recv.foldl insertResult (fun _ => none)

/-- The sequential reference (the commented-out first version in the source):
`for _, url := range urls { results[url] = wc(url) }`. -/
def seqCheckWebsites (wc : WebsiteChecker) (urls : List String) :
    String → Option Bool :=
  insertResults (resultMessages wc urls)

/-- The checker of the unit test. -/
def mockWebsiteChecker (url : String) : Bool :=
  url != "waat://furhurterwe.geds"

/-- The URL list of the unit test. -/
def testUrls : List String :=
  ["http://google.com", "http://blog.gypsydave5.com", "waat://furhurterwe.geds"]

/-- A receive order for the test messages that differs from spawn order. -/
def testRecv : List (String × Bool) :=
  [("waat://furhurterwe.geds", false), ("http://google.com", true),
    ("http://blog.gypsydave5.com", true)]

theorem foldl_insertResult_lookup (wc : WebsiteChecker) (l : List (String × Bool))
    (m : String → Option Bool) (k : String) (hl : ∀ p ∈ l, p.2 = wc p.1) :
    l.foldl insertResult m k =
      if k ∈ l.map Prod.fst then some (wc k) else m k := by
  induction l generalizing m with
  | nil => simp
  | cons p rest ih =>
      have hp : p.2 = wc p.1 := hl p (List.mem_cons_self p rest)
      have hrest : ∀ q ∈ rest, q.2 = wc q.1 :=
        fun q hq => hl q (List.mem_cons_of_mem p hq)
      simp only [List.foldl_cons, List.map_cons, List.mem_cons]
      rw [ih (insertResult m p) hrest]
      by_cases hk : k ∈ rest.map Prod.fst
      · simp [hk]
      · by_cases hkp : k = p.1
        · simp [hk, hkp, insertResult, hp]
        · simp [hk, hkp, insertResult]

theorem resultMessages_keys (wc : WebsiteChecker) (urls : List String) :
    (resultMessages wc urls).map Prod.fst = urls := by
  simp [resultMessages, List.map_map, Function.comp_def]

/-- Claim C1: whenever the orchestrator receives an admissible message list
(a permutation of the messages the workers send), it receives exactly
`len(urls)` of them, the map it builds agrees with the sequential reference,
and it sends every url of `urls` to `wc(url)`. -/
theorem CheckWebsites_refines_seq (wc : WebsiteChecker) (urls : List String)
    (recv : List (String × Bool))
    (hperm : List.Perm recv (resultMessages wc urls)) :
    recv.length = urls.length ∧
    insertResults recv = seqCheckWebsites wc urls ∧
    (∀ u ∈ urls, insertResults recv u = some (wc u)) := by
  have hlen : recv.length = urls.length := by
    simpa [resultMessages] using hperm.length_eq
  have hcons : ∀ p ∈ recv, p.2 = wc p.1 := by
    intro p hp
    have hmem : p ∈ resultMessages wc urls := hperm.mem_iff.mp hp
    simp only [resultMessages, List.mem_map] at hmem
    obtain ⟨u, _, hpu⟩ := hmem
    rw [← hpu]
  have hconsSeq : ∀ p ∈ resultMessages wc urls, p.2 = wc p.1 := by
    intro p hp
    simp only [resultMessages, List.mem_map] at hp
    obtain ⟨u, _, hpu⟩ := hp
    rw [← hpu]
  have hkeys : ∀ k, k ∈ recv.map Prod.fst ↔ k ∈ urls := by
    intro k
    rw [(hperm.map Prod.fst).mem_iff, resultMessages_keys]
  have hmain : ∀ k, insertResults recv k =
      if k ∈ urls then some (wc k) else none := by
    intro k
    rw [insertResults, foldl_insertResult_lookup wc recv _ k hcons]
    simp [hkeys k]
  have hmainSeq : ∀ k, seqCheckWebsites wc urls k =
      if k ∈ urls then some (wc k) else none := by
    intro k
    rw [seqCheckWebsites, insertResults,
      foldl_insertResult_lookup wc _ _ k hconsSeq, resultMessages_keys]
  refine ⟨hlen, funext fun k => by rw [hmain k, hmainSeq k], fun u hu => by
    rw [hmain u]
    simp [hu]⟩

/-- Witness for C1: the test checker and URL list, with the messages
received in an order different from spawn order. -/
theorem CheckWebsites_refines_seq_witness :
    testRecv.length = testUrls.length ∧
    insertResults testRecv = seqCheckWebsites mockWebsiteChecker testUrls ∧
    (∀ u ∈ testUrls, insertResults testRecv u = some (mockWebsiteChecker u)) :=
  CheckWebsites_refines_seq mockWebsiteChecker testUrls testRecv (by decide)

/-- The body of the spawned goroutine `func(u string)`: it performs exactly
one checker invocation, on its argument `u`, and builds the message
`result{u, wc(u)}`.  The first component records the invocation. -/
def worker (wc : WebsiteChecker) (u : String) : List String × (String × Bool) :=
  ([u], (u, wc u))

/-- All checker invocations a `CheckWebsites(wc, urls)` call performs: the
invocations of the goroutines spawned by the range loop, one goroutine per
entry of `urls`. -/
def checkerInvocations (wc : WebsiteChecker) (urls : List String) : List String :=
  (urls.map fun u => (worker wc u).1).flatten

/-- Claim C2 as stated: the checker is invoked exactly once per URL, for
every input list, including lists repeating a URL. -/
def ExactlyOncePerURLClaim : Prop :=
  ∀ (wc : WebsiteChecker) (urls : List String), ∀ u ∈ urls,
    (checkerInvocations wc urls).count u = 1

/-- Counterexample to C2: on the list `["a", "a"]` the range loop spawns two
goroutines for the URL "a" and the checker runs twice on it, not once. -/
theorem checker_once_per_url_counterexample :
    (checkerInvocations (fun _ => true) ["a", "a"]).count "a" = 2 ∧
    ¬ ExactlyOncePerURLClaim :=
  ⟨by decide, fun h =>
    absurd (h (fun _ => true) ["a", "a"] "a" (by decide)) (by decide)⟩

/-- Claim C2 as amended: the checker is invoked exactly once per entry of
`urls`, so the number of invocations on any URL equals the number of its
occurrences in `urls`, and the total number of invocations is `len(urls)`. -/
theorem checkerInvocations_count (wc : WebsiteChecker) (urls : List String)
    (u : String) :
    (checkerInvocations wc urls).count u = urls.count u ∧
    (checkerInvocations wc urls).length = urls.length := by
  have key : checkerInvocations wc urls = urls := by
    induction urls with
    | nil => rfl
    | cons x xs ih =>
        simp only [checkerInvocations, worker, List.map_cons, List.flatten_cons] at ih ⊢
        rw [ih]
        rfl
  rw [key]
  exact ⟨rfl, rfl⟩

end Concurrency

/-! ## Racer (src/unnamed/part_000)

`ping(url)` starts `http.Get(url)` and closes its channel when the request
returns — whether or not `http.Get` reported an error, since the error is
discarded.  The environment records, for each of the two probes, the time
at which its request returns (in nanoseconds, like `time.Duration`) and
whether it returned a non-nil error.  The `select` fires whichever case is
ready first, ties resolved nondeterministically, so a run is a relation
between the environment and the `(winner, error)` the call returns; the Go
`error` result is an `Option String` carrying the `fmt.Errorf` message. -/

namespace RacerPkg

structure ProbeEnv where
  getTimeA : Nat
  getTimeB : Nat
  getErrA : Bool
  getErrB : Bool

def tenSecondTimeout : Nat := 10 * 1000000000

def timeoutMessage (a b : String) : String :=
  "timed out waiting for " ++ a ++ " and " ++ b

/-- The admissible outcomes of `ConfigurableRacer(a, b, timeout)` in
environment `env`: the channel of probe `a` closes at `getTimeA`, that of
`b` at `getTimeB`, the `time.After` channel fires at `timeout`, and the
`select` commits to a case that is ready no later than the others. -/
inductive ConfigurableRacer (a b : String) (env : ProbeEnv) (timeout : Nat) :
    String × Option String → Prop where
  | winA : env.getTimeA ≤ env.getTimeB → env.getTimeA ≤ timeout →
      ConfigurableRacer a b env timeout (a, none)
  | winB : env.getTimeB ≤ env.getTimeA → env.getTimeB ≤ timeout →
      ConfigurableRacer a b env timeout (b, none)
  | timedOut : timeout ≤ env.getTimeA → timeout ≤ env.getTimeB →
      ConfigurableRacer a b env timeout ("", some (timeoutMessage a b))

/-- `Racer` delegates to `ConfigurableRacer` with the ten-second timeout. -/
def Racer (a b : String) (env : ProbeEnv) (out : String × Option String) : Prop :=
  ConfigurableRacer a b env tenSecondTimeout out

/-- Claim C3 as stated: the winner is whichever probe responds first with a
nil error, and a non-nil error is returned exactly when no probe responds
with a nil error within the timeout. -/
def RacerNilErrorClaim : Prop :=
  ∀ (a b : String) (env : ProbeEnv) (timeout : Nat) (out : String × Option String),
    ConfigurableRacer a b env timeout out →
      (out = (a, none) → env.getErrA = false ∧ env.getTimeA ≤ timeout) ∧
      (out = (b, none) → env.getErrB = false ∧ env.getTimeB ≤ timeout) ∧
      (out.2.isSome ↔
        ¬(env.getErrA = false ∧ env.getTimeA ≤ timeout) ∧
        ¬(env.getErrB = false ∧ env.getTimeB ≤ timeout))

/-- Counterexample to C3: `ping` discards the error of `http.Get`, so a probe
that fails fast still wins the race.  With probe a failing at t=1 (non-nil
error) and probe b succeeding only at t=20 against a timeout of 10, the code
returns `(a, nil)`, while the claim demands a winner with a nil error. -/
theorem Racer_nil_error_counterexample : ¬ RacerNilErrorClaim := by
  intro h
  have hrun : ConfigurableRacer "x" "y"
      { getTimeA := 1, getTimeB := 20, getErrA := true, getErrB := false }
      10 ("x", none) :=
    ConfigurableRacer.winA (by decide) (by decide)
  have := (h "x" "y"
      { getTimeA := 1, getTimeB := 20, getErrA := true, getErrB := false }
      10 ("x", none) hrun).1 rfl
  simp at this

/-- Claim C3 as amended: for distinct URLs, the winner is whichever probe's
HTTP request completes first within the timeout, irrespective of the error
`http.Get` reported; a non-nil error comes with an empty winner and occurs
only when the timeout fires no later than both requests, and conversely a
timed-out run is admissible whenever both requests take at least the
timeout; `Racer(a, b)` is `ConfigurableRacer(a, b, tenSecondTimeout)`. -/
theorem ConfigurableRacer_spec (a b : String) (env : ProbeEnv) (timeout : Nat)
    (out : String × Option String) (hab : a ≠ b)
    (h : ConfigurableRacer a b env timeout out) :
    (out = (a, none) → env.getTimeA ≤ env.getTimeB ∧ env.getTimeA ≤ timeout) ∧
    (out = (b, none) → env.getTimeB ≤ env.getTimeA ∧ env.getTimeB ≤ timeout) ∧
    (out.2.isSome →
      out = ("", some (timeoutMessage a b)) ∧
      timeout ≤ env.getTimeA ∧ timeout ≤ env.getTimeB) ∧
    (timeout ≤ env.getTimeA → timeout ≤ env.getTimeB →
      ConfigurableRacer a b env timeout ("", some (timeoutMessage a b))) ∧
    (∀ o, Racer a b env o ↔ ConfigurableRacer a b env tenSecondTimeout o) := by
  refine ⟨?_, ?_, ?_, fun h1 h2 => ConfigurableRacer.timedOut h1 h2,
    fun o => Iff.rfl⟩
  · intro hout
    cases h with
    | winA h1 h2 => exact ⟨h1, h2⟩
    | winB h1 h2 =>
        exact absurd (congrArg Prod.fst hout) (fun hba => hab (hba.symm))
    | timedOut h1 h2 => simp at hout
  · intro hout
    cases h with
    | winA h1 h2 =>
        exact absurd (congrArg Prod.fst hout) (fun hba => hab hba)
    | winB h1 h2 => exact ⟨h1, h2⟩
    | timedOut h1 h2 => simp at hout
  · intro hsome
    cases h with
    | winA h1 h2 => simp at hsome
    | winB h1 h2 => simp at hsome
    | timedOut h1 h2 => exact ⟨rfl, h1, h2⟩

/-- Witness for the amended C3: a fast probe a (t=0) against a slow probe b
(t=5) with timeout 3 and distinct URLs. -/
theorem ConfigurableRacer_spec_witness :
    (("x", (none : Option String)) = ("x", none) →
      (0 : Nat) ≤ 5 ∧ (0 : Nat) ≤ 3) ∧
    (("x", (none : Option String)) = ("y", none) →
      (5 : Nat) ≤ 0 ∧ (5 : Nat) ≤ 3) ∧
    ((("x", (none : Option String)).2.isSome →
      ("x", (none : Option String)) = ("", some (timeoutMessage "x" "y")) ∧
      (3 : Nat) ≤ 0 ∧ (3 : Nat) ≤ 5)) ∧
    ((3 : Nat) ≤ 0 → (3 : Nat) ≤ 5 →
      ConfigurableRacer "x" "y"
        { getTimeA := 0, getTimeB := 5, getErrA := false, getErrB := false }
        3 ("", some (timeoutMessage "x" "y"))) ∧
    (∀ o, Racer "x" "y"
        { getTimeA := 0, getTimeB := 5, getErrA := false, getErrB := false } o ↔
      ConfigurableRacer "x" "y"
        { getTimeA := 0, getTimeB := 5, getErrA := false, getErrB := false }
        tenSecondTimeout o) :=
  ConfigurableRacer_spec "x" "y"
    { getTimeA := 0, getTimeB := 5, getErrA := false, getErrB := false }
    3 ("x", none) (by decide)
    (ConfigurableRacer.winA (by decide) (by decide))

end RacerPkg

end GoTesting
